import Mathlib

/-!
# Verification of the combustion rate-constant display tool

Shallow embedding of the numeric core of the repository (the three Python
versions `v1.py`/`v2.py`/`v3.py` share the functions modelled here; line
references follow the versions cited by the claims).

* Numeric literal parser parse_scientific_notation (v1.py lines 20-58,
  identical in v2.py): embedded computably over `String`.  Python `float`
  values are idealised as exact rationals (`PyVal.finite`), with the
  `inf`/`infinity`/`nan` spellings that Python's `float()` accepts kept as
  explicit non-finite constructors; binary64 rounding and overflow-to-inf
  are outside the model.  The `st.error` call on the unparsable path is
  modelled as the second component of the result (the emitted message text,
  `none` when no error is shown).
* Rate-constant evaluator `calculate_rate_constant` (v1.py lines 60-72) and
  the vectorised (numpy) application over the temperature grid: embedded
  over `ℝ`, with numpy arrays as `List ℝ` and elementwise operations as
  `List.map`.
* The `valid_reactions` filter, duplicate-channel aggregation (`k_total`,
  `np.sum(..., axis=0)`), auto Y-range and the 1000/T axis transform of
  v2.py's assembly code.
-/

/-- Idealised value of a Python `float`: an exact rational for finite
values, plus the non-finite values that `float()` can produce from the
literals `inf`, `infinity`, `nan` (any case, optional sign).  A finite
value is kept as `num / 10 ^ den10` with the power of ten folded into
`num` whenever the overall decimal exponent is non-negative, so equal
decimal literals have equal representations. -/
inductive PyVal where
  | finite (num : ℤ) (den10 : ℕ)
  | inf
  | neginf
  | nan
  deriving DecidableEq

/-- The rational value of an idealised float (non-finite values carry no
rational; they are given the junk value 0, see `PyVal.isFinite`). -/
def PyVal.toRat : PyVal → ℚ
  | .finite n d => (n : ℚ) / 10 ^ d
  | _ => 0

/-- `true` exactly on finite Python float values. -/
def PyVal.isFinite : PyVal → Bool
  | .finite _ _ => true
  | _ => false

/-- Python whitespace as used by `str.strip` and the regex class `\s`
(ASCII part: space, tab, newline, carriage return, vertical tab, form
feed). -/
def pyIsSpace (c : Char) : Bool :=
  c == ' ' || c == '\t' || c == '\n' || c == '\r' || c == '\x0b' || c == '\x0c'

/-- `str.strip()`: drop leading and trailing whitespace. -/
def stripWs (cs : List Char) : List Char :=
  ((cs.dropWhile pyIsSpace).reverse.dropWhile pyIsSpace).reverse

/-- Greedy run of decimal digits (`\d*` / `\d+`), returning the digits and
the rest of the input. -/
def takeDigits : List Char → List Char × List Char
  | [] => ([], [])
  | c :: cs =>
    if c.isDigit then
      let p := takeDigits cs
      (c :: p.1, p.2)
    else ([], c :: cs)

/-- Numeric value of a digit string. -/
def digitsToNat (cs : List Char) : ℕ :=
  cs.foldl (fun a c => 10 * a + (c.toNat - 48)) 0

/-- The finite float denoted by a parsed decimal literal: sign,
integer-part digits, fraction digits and decimal exponent.  The denoted
rational is `±(ip.fp) · 10 ^ e = ±digits(ip ++ fp) · 10 ^ (e - |fp|)`. -/
def mkFinite (neg : Bool) (ip fp : List Char) (e : ℤ) : PyVal :=
  let m : ℤ := (digitsToNat (ip ++ fp) : ℤ)
  let m : ℤ := if neg then -m else m
  let ex : ℤ := e - fp.length
  if 0 ≤ ex then PyVal.finite (m * 10 ^ ex.toNat) 0 else PyVal.finite m (-ex).toNat

/-- Python's `float(text)` on a character list: optional surrounding
whitespace, optional sign, then either `inf`/`infinity`/`nan`
(case-insensitive) or a decimal literal `d+ | d+.d* | d*.d+` with an
optional `e`/`E` exponent; the whole input must be consumed.  Digit-group
underscores (unused by this repository's inputs) are not modelled.
Returns `none` where Python raises `ValueError`. -/
def pyFloatCore (cs0 : List Char) : Option PyVal :=
  let cs := stripWs cs0
  let sgn : Bool × List Char :=
    match cs with
    | '+' :: r => (false, r)
    | '-' :: r => (true, r)
    | _ => (false, cs)
  let neg := sgn.1
  let cs1 := sgn.2
  let low := cs1.map Char.toLower
  if low = ['i', 'n', 'f'] ∨ low = ['i', 'n', 'f', 'i', 'n', 'i', 't', 'y'] then
    some (if neg then PyVal.neginf else PyVal.inf)
  else if low = ['n', 'a', 'n'] then
    some PyVal.nan
  else
    let ipp := takeDigits cs1
    let ip := ipp.1
    let fpp : List Char × List Char :=
      match ipp.2 with
      | '.' :: r => takeDigits r
      | _ => ([], ipp.2)
    let fp := fpp.1
    if ip = [] ∧ fp = [] then none
    else
      match fpp.2 with
      | [] => some (mkFinite neg ip fp 0)
      | c :: r =>
        if c == 'e' || c == 'E' then
          let esgn : Bool × List Char :=
            match r with
            | '+' :: r2 => (false, r2)
            | '-' :: r2 => (true, r2)
            | _ => (false, r)
          let edp := takeDigits esgn.2
          if edp.1 = [] ∨ edp.2 ≠ [] then none
          else
            let e : ℤ :=
              if esgn.1 then -(digitsToNat edp.1 : ℤ) else (digitsToNat edp.1 : ℤ)
            some (mkFinite neg ip fp e)
        else none

/-- The mantissa group `([+-]?\d*\.?\d+)` of the three regex patterns,
matched greedily at the head of the input.  Returns the matched characters
and the rest.  Mirrors the backtracking behaviour of the Python regex
engine for this group: when the optional dot is not followed by a digit the
match ends before the dot. -/
def matchMantissa (cs : List Char) : Option (List Char × List Char) :=
  let sgnSplit : List Char × List Char :=
    match cs with
    | c :: rest => if c == '+' || c == '-' then ([c], rest) else ([], cs)
    | [] => ([], [])
  let sgn := sgnSplit.1
  let cs1 := sgnSplit.2
  let d1p := takeDigits cs1
  let d1 := d1p.1
  let cs2 := d1p.2
  match cs2 with
  | '.' :: cs3 =>
    let d2p := takeDigits cs3
    if d2p.1 ≠ [] then some (sgn ++ d1 ++ '.' :: d2p.1, d2p.2)
    else if d1 ≠ [] then some (sgn ++ d1, cs2)
    else none
  | _ => if d1 ≠ [] then some (sgn ++ d1, cs2) else none

/-- The exponent group `([+-]?\d+)`. -/
def matchExpG (cs : List Char) : Option (List Char × List Char) :=
  let sgnSplit : List Char × List Char :=
    match cs with
    | c :: rest => if c == '+' || c == '-' then ([c], rest) else ([], cs)
    | [] => ([], [])
  let dp := takeDigits sgnSplit.2
  if dp.1 = [] then none else some (sgnSplit.1 ++ dp.1, dp.2)

/-- The multiplication-sign class `[×xX\*]`. -/
def matchSep : List Char → Option (List Char)
  | c :: r => if c == '×' || c == 'x' || c == 'X' || c == '*' then some r else none
  | [] => none

/-- `\s*`. -/
def dropWs (cs : List Char) : List Char := cs.dropWhile pyIsSpace

/-- Pattern 1, `([+-]?\d*\.?\d+)\s*[×xX\*]\s*10\^([+-]?\d+)` matched at the
head of the input; returns (mantissa group, exponent group, rest). -/
def matchP1 (cs : List Char) : Option (List Char × List Char × List Char) := do
  let (m, cs1) ← matchMantissa cs
  let cs3 ← matchSep (dropWs cs1)
  match dropWs cs3 with
  | '1' :: '0' :: '^' :: cs5 =>
    let (e, cs6) ← matchExpG cs5
    some (m, e, cs6)
  | _ => none

/-- Pattern 2, `([+-]?\d*\.?\d+)\s*[×xX\*]\s*10([+-]?\d+)` (caret-less
form) matched at the head of the input. -/
def matchP2 (cs : List Char) : Option (List Char × List Char × List Char) := do
  let (m, cs1) ← matchMantissa cs
  let cs3 ← matchSep (dropWs cs1)
  match dropWs cs3 with
  | '1' :: '0' :: cs5 =>
    let (e, cs6) ← matchExpG cs5
    some (m, e, cs6)
  | _ => none

/-- Pattern 3, `([+-]?\d*\.?\d+)\s*[eE]\s*([+-]?\d+)` matched at the head
of the input. -/
def matchP3 (cs : List Char) : Option (List Char × List Char × List Char) := do
  let (m, cs1) ← matchMantissa cs
  match dropWs cs1 with
  | c :: cs3 =>
    if c == 'e' || c == 'E' then
      let (e, cs6) ← matchExpG (dropWs cs3)
      some (m, e, cs6)
    else none
  | [] => none

/-- `re.sub(pattern, r'\1e\2', text)`: scan left to right, replace every
non-overlapping occurrence by mantissa ++ "e" ++ exponent, copy unmatched
characters.  Fuel-driven; every match consumes at least one character, so
fuel equal to the input length suffices. -/
def subAll (f : List Char → Option (List Char × List Char × List Char)) :
    ℕ → List Char → List Char
  | 0, cs => cs
  | _ + 1, [] => []
  | fuel + 1, c :: cs =>
    match f (c :: cs) with
    | some (m, e, rest) => m ++ 'e' :: (e ++ subAll f fuel rest)
    | none => c :: subAll f fuel cs

/-- The pattern loop of the parser (v1.py lines 44-51): for each pattern in
priority order, if `re.match` succeeds, rewrite with `re.sub` and attempt
`float`; a failed conversion falls through to the next pattern. -/
def tryPatterns (cs : List Char) : Option PyVal :=
  let att := fun (f : List Char → Option (List Char × List Char × List Char)) =>
    if (f cs).isSome then pyFloatCore (subAll f cs.length cs) else none
  match att matchP1 with
  | some v => some v
  | none =>
    match att matchP2 with
    | some v => some v
    | none => att matchP3

/-- v1.py lines 20-58 — parse_scientific_notation, identical in v2.py.
Input `none` models Python `None`; the first component is the returned
value, the second the `st.error` message text emitted on the unparsable
path (the offending — already stripped — text). -/
def parse_scientific_notation (text : Option String) : Option PyVal × Option String :=
  match text with
  | none => (none, none)
  | some t =>
    if t = "" then (none, none)
    else
      let cs := stripWs t.data
      match pyFloatCore cs with
      | some v => (some v, none)
      | none =>
        match tryPatterns cs with
        | some v => (some v, none)
        | none =>
          match pyFloatCore cs with
          | some v => (some v, none)
          | none => (none, some (String.mk cs))

/-- Value returned to the callers (they test `is not None` only). -/
def parseVal (s : String) : Option PyVal :=
  ( parse_scientific_notation (some s)).fst

/-! ## Session records and the validity filter (v2.py lines 305-331) -/

/-- One rate channel as entered in the UI: the raw text of the three
fields. -/
structure ChannelInput where
  A : String
  n : String
  Ea : String
  deriving DecidableEq

/-- One entry of `st.session_state.reactions` in v2.py: the `type` tag
(`"single"` or `"duplicate"`), the equation and reference labels, and the
ordered channel list (`parameters`). -/
structure ReactionInput where
  rtype : String
  equation : String
  reference : String
  parameters : List ChannelInput
  deriving DecidableEq

/-- One surviving channel: the three parsed values. -/
structure ValidParams where
  A : PyVal
  n : PyVal
  Ea : PyVal
  deriving DecidableEq

/-- A reaction that passed the filter, with its surviving channels. -/
structure ValidReaction where
  rtype : String
  equation : String
  reference : String
  parameters : List ValidParams
  deriving DecidableEq

/-- The per-channel body of the filter loop (v2.py lines 310-321): the
channel survives iff its three fields are non-empty (Python string
truthiness) and all three parse to a value. -/
def channel_step (p : ChannelInput) : Option ValidParams :=
  if p.A ≠ "" ∧ p.n ≠ "" ∧ p.Ea ≠ "" then
    match parseVal p.A, parseVal p.n, parseVal p.Ea with
    | some a, some b, some c => some ⟨a, b, c⟩
    | _, _, _ => none
  else none

/-- The surviving channels of one reaction, in order. -/
def valid_params_of (ps : List ChannelInput) : List ValidParams :=
  ps.filterMap channel_step

/-- The whole-reaction body of the filter loop (v2.py lines 306-329): kept
iff the equation label is non-empty and at least one channel survives. -/
def validate (r : ReactionInput) : Option ValidReaction :=
  if r.equation ≠ "" then
    let vp := valid_params_of r.parameters
    if vp ≠ [] then some ⟨r.rtype, r.equation, r.reference, vp⟩ else none
  else none

/-- `valid_reactions` (v2.py lines 305-329): the ordered list of reactions
that contribute to the curves and the table. -/
def valid_reactions (rs : List ReactionInput) : List ValidReaction :=
  rs.filterMap validate

/-! ## The numeric layer: evaluator, aggregation, assembly (over `ℝ`)

Numpy arrays are embedded as `List ℝ` and elementwise operations as
`List.map`; `np.linspace`, `np.sum(…, axis=0)` and `np.log10` are given
their exact real-number semantics (IEEE rounding and non-finite float
propagation are outside the real-number model). -/

/-- v1.py lines 60-72 (`calculate_rate_constant`, identical in v2.py):
`k = A * T ** n * np.exp(-Ea / (R * T))` at a scalar temperature. -/
noncomputable def calculate_rate_constant (T A n Ea : ℝ) (R : ℝ := 1.987) : ℝ :=
  A * T ^ n * Real.exp (-Ea / (R * T))

/-- The same call with `T` a numpy array: numpy broadcasts `**`, `*`,
`/` and `np.exp` elementwise. -/
noncomputable def calculate_rate_constant_vec (T : List ℝ) (A n Ea R : ℝ) : List ℝ :=
  T.map (fun t => calculate_rate_constant t A n Ea R)

/-- One Arrhenius parameter triple after parsing, as used by the
assembly code. -/
structure RateParams where
  A : ℝ
  n : ℝ
  Ea : ℝ

/-- v2.py lines 369-372: the list of per-channel rate-constant arrays of
a duplicate reaction. -/
noncomputable def k_components (T : List ℝ) (ps : List RateParams) (R : ℝ) :
    List (List ℝ) :=
  ps.map (fun p => calculate_rate_constant_vec T p.A p.n p.Ea R)

/-- `np.sum(xss, axis=0)` on a list of arrays that all have length
`len`: the elementwise sum. -/
noncomputable def npSumAxis0 (xss : List (List ℝ)) (len : ℕ) : List ℝ :=
  (List.range len).map (fun i => (xss.map (fun xs => xs.getD i 0)).sum)

/-- v2.py line 375: `k_total = np.sum(k_components, axis=0)`. -/
noncomputable def k_total (T : List ℝ) (ps : List RateParams) (R : ℝ) : List ℝ :=
  npSumAxis0 (k_components T ps R) T.length

/-- `np.log10` on an array. -/
noncomputable def log10_vec (l : List ℝ) : List ℝ :=
  l.map (fun x => Real.logb 10 x)

/-- v2.py line 376: `log_k_total = np.log10(k_total)`. -/
noncomputable def log_k_total (T : List ℝ) (ps : List RateParams) (R : ℝ) : List ℝ :=
  log10_vec (k_total T ps R)

/-- v2.py lines 497-498: the `sum` row's 300 K entry,
`sum([calculate_rate_constant(300, …) for p in parameters])`. -/
noncomputable def k_total_300 (ps : List RateParams) (R : ℝ) : ℝ :=
  (ps.map (fun p => calculate_rate_constant 300 p.A p.n p.Ea R)).sum

/-- v2.py lines 499-500: the `sum` row's 1000 K entry. -/
noncomputable def k_total_1000 (ps : List RateParams) (R : ℝ) : ℝ :=
  (ps.map (fun p => calculate_rate_constant 1000 p.A p.n p.Ea R)).sum

/-- v2.py lines 501-502: the `sum` row's 2000 K entry. -/
noncomputable def k_total_2000 (ps : List RateParams) (R : ℝ) : ℝ :=
  (ps.map (fun p => calculate_rate_constant 2000 p.A p.n p.Ea R)).sum

/-- A valid reaction as seen by the assembly loop: the `type` tag and the
parsed channel parameters. -/
structure RReaction where
  rtype : String
  parameters : List RateParams

/-- Real value of an idealised float.  `±inf` and `nan` have no
counterpart in `ℝ` and are mapped to the junk value 0; the list-level
equalities proved about the assembly hold for any choice made here. -/
noncomputable def PyVal.toReal : PyVal → ℝ
  | .finite num den10 => (num : ℝ) / 10 ^ den10
  | _ => 0

/-- Channel parameters handed from the filter to the assembly loop. -/
noncomputable def toRParams (p : ValidParams) : RateParams :=
  ⟨p.A.toReal, p.n.toReal, p.Ea.toReal⟩

/-- Valid reaction handed from the filter to the assembly loop. -/
noncomputable def toRReaction (r : ValidReaction) : RReaction :=
  ⟨r.rtype, r.parameters.map toRParams⟩

/-- The primary curve of one valid reaction (v2.py lines 345-350 for a
single reaction — `parameters[0]` — and lines 366-376 for a duplicate
reaction: log₁₀ of the summed `k_total`). -/
noncomputable def primary_curve (T : List ℝ) (R : ℝ) (r : RReaction) : List ℝ :=
  if r.rtype = "single" then
    log10_vec (calculate_rate_constant_vec T (r.parameters.headD ⟨0, 0, 0⟩).A
      (r.parameters.headD ⟨0, 0, 0⟩).n (r.parameters.headD ⟨0, 0, 0⟩).Ea R)
  else
    log_k_total T r.parameters R

/-- The per-channel auxiliary curves of a duplicate reaction
(v2.py lines 394-397). -/
noncomputable def component_curves (T : List ℝ) (R : ℝ) (r : RReaction) :
    List (List ℝ) :=
  r.parameters.map (fun p => log10_vec (calculate_rate_constant_vec T p.A p.n p.Ea R))

/-- All log₁₀(k) values one reaction contributes to `all_log_k` in the
v2.py plotting loop (lines 342-402): the primary curve always; the
per-channel curves only for a duplicate reaction when the
`show_duplicate_components` checkbox is set. -/
noncomputable def reaction_logs (T : List ℝ) (R : ℝ) (showComp : Bool) (r : RReaction) :
    List ℝ :=
  primary_curve T R r ++
    (if showComp = true ∧ r.rtype ≠ "single" then (component_curves T R r).flatten else [])

/-- `all_log_k` (v2.py lines 339-397): every log value collected over the
plotting loop, in loop order. -/
noncomputable def all_log_k (T : List ℝ) (R : ℝ) (showComp : Bool) (rs : List RReaction) :
    List ℝ :=
  (rs.map (reaction_logs T R showComp)).flatten

/-- Auto Y-range (v1.py lines 352-357, v2.py lines 443-449): when the
collected list is non-empty, `[min - 0.1·span, max + 0.1·span]`; when it
is empty, no range is set (`none`, the caller's default stays). -/
noncomputable def auto_y_range (l : List ℝ) : Option (ℝ × ℝ) :=
  match l with
  | [] => none
  | x :: xs =>
    let dataMin := xs.foldl min x
    let dataMax := xs.foldl max x
    let margin := (dataMax - dataMin) * 0.1
    some (dataMin - margin, dataMax + margin)

/-- `np.linspace(a, b, num)` with endpoint (v1.py line 282): sample `i`
is `a + (b - a) * i / (num - 1)`. -/
noncomputable def linspace (a b : ℝ) (num : ℕ) : List ℝ :=
  (List.range num).map (fun i : ℕ => a + (b - a) * (i : ℝ) / ((num - 1 : ℕ) : ℝ))

/-- v1.py line 303 (`x_data = 1000.0 / T`): the inverse-temperature
x-axis data. -/
noncomputable def x_data_inv (T : List ℝ) : List ℝ :=
  T.map (fun t => 1000 / t)

/-- v1.py line 315 (`ax.set_xlim(1000.0/T_max, 1000.0/T_min)`): the
resolved x-axis range in inverse-temperature mode, bounds swapped
relative to the temperature bounds. -/
noncomputable def x_range_inv (tmin tmax : ℝ) : ℝ × ℝ :=
  (1000 / tmax, 1000 / tmin)

/-- The plotted primary curves, one per valid reaction (what one malformed
record may or may not change for the other records). -/
noncomputable def curves (T : List ℝ) (R : ℝ) (rs : List ReactionInput) :
    List (List ℝ) :=
  (valid_reactions rs).map (fun vr => primary_curve T R (toRReaction vr))

/-- The data-table block of one valid reaction (v2.py lines 458-514): a
single reaction yields one row of the three reference-temperature values;
a duplicate reaction yields one row per channel followed by the `sum`
row. -/
noncomputable def table_rows (R : ℝ) (r : RReaction) : List (List ℝ) :=
  if r.rtype = "single" then
    [[calculate_rate_constant 300 (r.parameters.headD ⟨0, 0, 0⟩).A
        (r.parameters.headD ⟨0, 0, 0⟩).n (r.parameters.headD ⟨0, 0, 0⟩).Ea R,
      calculate_rate_constant 1000 (r.parameters.headD ⟨0, 0, 0⟩).A
        (r.parameters.headD ⟨0, 0, 0⟩).n (r.parameters.headD ⟨0, 0, 0⟩).Ea R,
      calculate_rate_constant 2000 (r.parameters.headD ⟨0, 0, 0⟩).A
        (r.parameters.headD ⟨0, 0, 0⟩).n (r.parameters.headD ⟨0, 0, 0⟩).Ea R]]
  else
    (r.parameters.map (fun p =>
      [calculate_rate_constant 300 p.A p.n p.Ea R,
       calculate_rate_constant 1000 p.A p.n p.Ea R,
       calculate_rate_constant 2000 p.A p.n p.Ea R])) ++
    [[k_total_300 r.parameters R, k_total_1000 r.parameters R,
      k_total_2000 r.parameters R]]

/-- The whole summary table over the session list. -/
noncomputable def table (R : ℝ) (rs : List ReactionInput) : List (List (List ℝ)) :=
  (valid_reactions rs).map (fun vr => table_rows R (toRReaction vr))

/-! ## Helper lemmas -/

theorem getD_map_of_lt {α β : Type} (g : α → β) (d : β) (dd : α) :
    ∀ (l : List α) (i : ℕ), i < l.length → (l.map g).getD i d = g (l.getD i dd)
  | [], _, h => absurd h (by simp)
  | _ :: _, 0, _ => rfl
  | _ :: l, i + 1, h => getD_map_of_lt g d dd l i (by simpa using h)

theorem getD_range_of_lt {n i : ℕ} (h : i < n) (d : ℕ) :
    (List.range n).getD i d = i := by
  rw [List.getD_eq_getElem _ _ (by simpa using h)]
  exact List.getElem_range _ _

theorem foldl_min_le (l : List ℝ) (a : ℝ) : ∀ x ∈ a :: l, l.foldl min a ≤ x := by
  induction l generalizing a with
  | nil => intro x hx; simp at hx; simp [hx]
  | cons b l ih =>
    intro x hx
    simp only [List.foldl_cons]
    rcases List.mem_cons.mp hx with h | h
    · rw [h]
      exact le_trans (ih (min a b) _ (List.mem_cons_self _ _)) (min_le_left a b)
    · rcases List.mem_cons.mp h with h1 | h1
      · rw [h1]
        exact le_trans (ih (min a b) _ (List.mem_cons_self _ _)) (min_le_right a b)
      · exact ih (min a b) x (List.mem_cons_of_mem _ h1)

theorem le_foldl_max (l : List ℝ) (a : ℝ) : ∀ x ∈ a :: l, x ≤ l.foldl max a := by
  induction l generalizing a with
  | nil => intro x hx; simp at hx; simp [hx]
  | cons b l ih =>
    intro x hx
    simp only [List.foldl_cons]
    rcases List.mem_cons.mp hx with h | h
    · rw [h]
      exact le_trans (le_max_left a b) (ih (max a b) _ (List.mem_cons_self _ _))
    · rcases List.mem_cons.mp h with h1 | h1
      · rw [h1]
        exact le_trans (le_max_right a b) (ih (max a b) _ (List.mem_cons_self _ _))
      · exact ih (max a b) x (List.mem_cons_of_mem _ h1)

theorem foldl_min_mem (l : List ℝ) (a : ℝ) : l.foldl min a ∈ a :: l := by
  induction l generalizing a with
  | nil => simp
  | cons b l ih =>
    simp only [List.foldl_cons]
    rcases List.mem_cons.mp (ih (min a b)) with h1 | h1
    · rw [h1]
      rcases min_choice a b with hm | hm <;> rw [hm] <;> simp
    · exact List.mem_cons_of_mem _ (List.mem_cons_of_mem _ h1)

theorem foldl_max_mem (l : List ℝ) (a : ℝ) : l.foldl max a ∈ a :: l := by
  induction l generalizing a with
  | nil => simp
  | cons b l ih =>
    simp only [List.foldl_cons]
    rcases List.mem_cons.mp (ih (max a b)) with h1 | h1
    · rw [h1]
      rcases max_choice a b with hm | hm <;> rw [hm] <;> simp
    · exact List.mem_cons_of_mem _ (List.mem_cons_of_mem _ h1)

theorem filterMap_filter_isSome {α β : Type} (f : α → Option β) (l : List α) :
    (l.filter (fun a => (f a).isSome)).filterMap f = l.filterMap f := by
  induction l with
  | nil => rfl
  | cons a l ih =>
    cases hfa : f a with
    | none => simp [List.filter_cons, List.filterMap_cons, hfa, ih]
    | some b => simp [List.filter_cons, List.filterMap_cons, hfa, ih]

theorem channel_step_isSome (p : ChannelInput) :
    (channel_step p).isSome = true ↔
      (p.A ≠ "" ∧ p.n ≠ "" ∧ p.Ea ≠ "" ∧ (parseVal p.A).isSome = true ∧
        (parseVal p.n).isSome = true ∧ (parseVal p.Ea).isSome = true) := by
  unfold channel_step
  by_cases h : p.A ≠ "" ∧ p.n ≠ "" ∧ p.Ea ≠ ""
  · rw [if_pos h]
    cases hA : parseVal p.A <;> cases hn : parseVal p.n <;> cases hE : parseVal p.Ea <;>
      simp [h, hA, hn, hE]
  · rw [if_neg h]
    simp only [Option.isSome_none, Bool.false_eq_true, false_iff]
    tauto

theorem valid_params_ne_nil_iff (ps : List ChannelInput) :
    valid_params_of ps ≠ [] ↔ ∃ p ∈ ps, (channel_step p).isSome = true := by
  unfold valid_params_of
  rw [Ne, List.filterMap_eq_nil_iff]
  push_neg
  constructor
  · rintro ⟨p, hp, hne⟩
    exact ⟨p, hp, Option.isSome_iff_ne_none.mpr hne⟩
  · rintro ⟨p, hp, hs⟩
    exact ⟨p, hp, Option.isSome_iff_ne_none.mp hs⟩

/-! ## Claims about the parser -/

/-- Claim C4: all accepted spellings of 2.64·10¹⁶ parse to the same
value — the standard `e`/`E` forms, the caret form with any of `×`, `x`,
`X`, `*` as multiplication sign, and the caret-less form (with the same
separators); patterns are tried anchored at the start of the trimmed
string in priority order (caret form, caret-less form, spaced-e form),
so `"2.64×1016"` is read as the caret-less rewrite `"2.64e16"`
(2.64·10¹⁶, equal to the other spellings), not as a multiplication by
the literal 1016. -/
theorem c4_spellings_agree :
    parseVal ("2.64e16") = some (PyVal.finite 26400000000000000 0)
    ∧ parseVal ("2.64E16") = parseVal ("2.64e16")
    ∧ parseVal ("2.64×10^16") = parseVal ("2.64e16")
    ∧ parseVal ("2.64x10^16") = parseVal ("2.64e16")
    ∧ parseVal ("2.64X10^16") = parseVal ("2.64e16")
    ∧ parseVal ("2.64*10^16") = parseVal ("2.64e16")
    ∧ parseVal ("2.64×1016") = parseVal ("2.64e16")
    ∧ parseVal ("2.64x1016") = parseVal ("2.64e16")
    ∧ parseVal ("2.64*1016") = parseVal ("2.64e16")
    ∧ parseVal ("  2.64×10^16  ") = parseVal ("2.64e16")
    ∧ parseVal ("2.64 × 10^16") = parseVal ("2.64e16") := by
  decide

/-- Claim C6: the parser keeps the two failure-like outcomes apart.
Absent (`None`) or empty input yields the silent no-value result
`(none, none)` — no error message is emitted — while unparsable text
such as `"abc"` yields no value *and* a user-facing error carrying the
offending text (second component `some "abc"`); the Boolean
discriminator `.snd.isSome` separates the two outcomes. -/
theorem c6_failure_outcomes_distinct :
    parse_scientific_notation none = (none, none)
    ∧ parse_scientific_notation (some "") = (none, none)
    ∧ parse_scientific_notation (some "abc") = (none, some "abc")
    ∧ ( parse_scientific_notation (some "abc")).snd.isSome = true
    ∧ ( parse_scientific_notation (some "")).snd.isSome = false
    ∧ ( parse_scientific_notation none).snd.isSome = false := by
  decide

/-- Claim C10: a whitespace-only input is not treated as empty — the
emptiness test runs before trimming, so `" "` falls through trimming to
the direct parses and patterns, all fail, and it ends on the unparsable
error path: no value and an error message (carrying the trimmed — hence
empty — offending text), unlike the silent no-value result reserved for
the exactly-empty string. -/
theorem c10_whitespace_only_hits_error_path :
    parse_scientific_notation (some " ") = (none, some "")
    ∧ ( parse_scientific_notation (some " ")).snd.isSome = true
    ∧ parse_scientific_notation (some "\t") = (none, some "")
    ∧ parse_scientific_notation (some "  ") = (none, some "")
    ∧ ( parse_scientific_notation (some "")).snd = none := by
  decide

/-- Claim C9 (implicit): the parser is total — for every input it
returns a value, or the silent no-value pair (exactly when the input is
empty), or the explicit unparsable pair carrying the stripped offending
text; every conversion failure falls through to the next strategy and
ultimately to the explicit unparsable outcome, never an exception. -/
theorem c9_parse_total (s : String) :
    parse_scientific_notation none = (none, none)
    ∧ ((∃ v, ( parse_scientific_notation (some s)).fst = some v)
      ∨ ( parse_scientific_notation (some s) = (none, none) ∧ s = "")
      ∨ parse_scientific_notation (some s) =
          (none, some (String.mk (stripWs s.data)))) := by
  refine ⟨rfl, ?_⟩
  by_cases hs : s = ""
  · exact Or.inr (Or.inl ⟨by simp [ parse_scientific_notation, hs], hs⟩)
  · unfold parse_scientific_notation
    simp only [hs, if_false]
    cases h1 : pyFloatCore (stripWs s.data) with
    | some v => exact Or.inl ⟨v, by simp [h1]⟩
    | none =>
      cases h2 : tryPatterns (stripWs s.data) with
      | some v => exact Or.inl ⟨v, by simp [h1, h2]⟩
      | none => exact Or.inr (Or.inr (by simp [h1, h2]))

/-- `true` iff the text parses successfully *to a finite value* — the
contribution condition as the specification words it. -/
def parsesFinite (s : String) : Bool :=
  match parseVal s with
  | some v => v.isFinite
  | none => false

/-- Refinement-side predicate following the claim's words: a reaction
contributes iff its equation label is non-empty and some channel has all
three fields non-empty and all three parsing to finite reals. -/
def contributes_spec_finite (r : ReactionInput) : Bool :=
  (r.equation != "") && r.parameters.any (fun p =>
    (p.A != "") && (p.n != "") && (p.Ea != "") &&
    parsesFinite p.A && parsesFinite p.n && parsesFinite p.Ea)

/-- The record refuting claim C3 as stated: a reaction whose only
channel has `A = "inf"`. -/
def cex_reaction : ReactionInput :=
  { rtype := "single", equation := "H + O2 = OH + O", reference := "",
    parameters := [{ A := "inf", n := "0", Ea := "0" }] }

/-- Claim C3 counterexample: Python's `float("inf")` succeeds, and the
filter never checks finiteness, so a reaction whose only channel has
`A = "inf"` is kept by `validate` (it contributes to curves and table)
although its `A` field does not parse to a *finite* real — the
claim's contribution condition is false for it.  This refutes the
stated iff. -/
theorem c3_counterexample_inf_contributes :
    (validate cex_reaction).isSome = true
    ∧ contributes_spec_finite cex_reaction = false
    ∧ parseVal ("inf") = some PyVal.inf
    ∧ PyVal.inf.isFinite = false := by
  decide

/-- Claim C3 (amended): a reaction contributes — is kept by the
`valid_reactions` filter — iff its equation label is non-empty and at
least one channel has all three of A, n, Ea non-empty and all three
parsing successfully (finiteness of the parsed value is *not* checked:
spellings like `"inf"` are accepted and the channel survives); an
unparsable or missing field excludes that channel, and a reaction with
no surviving channel is excluded entirely rather than defaulted to
zero. -/
theorem c3_amended_contributes_iff (r : ReactionInput) :
    (validate r).isSome = true ↔
      (r.equation ≠ "" ∧ ∃ p ∈ r.parameters,
        p.A ≠ "" ∧ p.n ≠ "" ∧ p.Ea ≠ "" ∧
        (parseVal p.A).isSome = true ∧ (parseVal p.n).isSome = true ∧
        (parseVal p.Ea).isSome = true) := by
  constructor
  · intro h
    unfold validate at h
    by_cases he : r.equation ≠ ""
    · refine ⟨he, ?_⟩
      by_cases hv : valid_params_of r.parameters ≠ []
      · obtain ⟨p, hp, hs⟩ := (valid_params_ne_nil_iff _).mp hv
        exact ⟨p, hp, (channel_step_isSome p).mp hs⟩
      · rw [if_pos he, if_neg hv] at h
        simp at h
    · rw [if_neg he] at h
      simp at h
  · rintro ⟨he, p, hp, hcond⟩
    have hv : valid_params_of r.parameters ≠ [] :=
      (valid_params_ne_nil_iff _).mpr ⟨p, hp, (channel_step_isSome p).mpr hcond⟩
    unfold validate
    rw [if_pos he, if_pos hv]
    rfl

/-! ## Claims about the numeric layer -/

/-- Claim C1: for every temperature T > 0 and real parameters A, n, Ea, R
with R ≠ 0, the evaluator returns k = A·Tⁿ·exp(−Ea/(R·T)); on a
temperature array it applies this formula elementwise, so the output has
the same length as the grid and its i-th entry depends only on the i-th
temperature; at the example values A=2.64e16, n=−0.67, Ea=16800,
R=1.987, T=300 the result is exactly the composed formula
2.64e16 · 300^(−0.67) · exp(−16800/(1.987·300)). -/
theorem c1_evaluator_formula (T A n Ea R : ℝ) (Ts : List ℝ)
    (hT : 0 < T) (hR : R ≠ 0) :
    calculate_rate_constant T A n Ea R = A * T ^ n * Real.exp (-Ea / (R * T))
    ∧ (calculate_rate_constant_vec Ts A n Ea R).length = Ts.length
    ∧ (∀ i, i < Ts.length →
        (calculate_rate_constant_vec Ts A n Ea R).getD i 0 =
          A * (Ts.getD i 0) ^ n * Real.exp (-Ea / (R * Ts.getD i 0)))
    ∧ calculate_rate_constant 300 (2.64e16) (-0.67) 16800 1.987 =
        2.64e16 * (300 : ℝ) ^ (-0.67 : ℝ) * Real.exp (-16800 / (1.987 * 300)) := by
  refine ⟨rfl, by simp [calculate_rate_constant_vec], ?_, rfl⟩
  intro i hi
  exact getD_map_of_lt _ 0 0 Ts i hi

/-- Witness for C1 at T = 300, R = 1.987, A = 2.64e16, n = −0.67,
Ea = 16800 and the grid [300, 1000, 2000]. -/
theorem c1_evaluator_formula_witness :
    (0 : ℝ) < 300 ∧ (1.987 : ℝ) ≠ 0 ∧
    (calculate_rate_constant 300 (2.64e16) (-0.67) 16800 1.987 =
        2.64e16 * (300 : ℝ) ^ (-0.67 : ℝ) *
          Real.exp (-(16800 : ℝ) / (1.987 * 300))
    ∧ (calculate_rate_constant_vec [300, 1000, 2000] (2.64e16) (-0.67) 16800
        1.987).length = ([300, 1000, 2000] : List ℝ).length
    ∧ (∀ i, i < ([300, 1000, 2000] : List ℝ).length →
        (calculate_rate_constant_vec [300, 1000, 2000] (2.64e16) (-0.67) 16800
          1.987).getD i 0 =
          2.64e16 * (([300, 1000, 2000] : List ℝ).getD i 0) ^ (-0.67 : ℝ) *
            Real.exp (-(16800 : ℝ) / (1.987 * ([300, 1000, 2000] : List ℝ).getD i 0)))
    ∧ calculate_rate_constant 300 (2.64e16) (-0.67) 16800 1.987 =
        2.64e16 * (300 : ℝ) ^ (-0.67 : ℝ) *
          Real.exp (-(16800 : ℝ) / (1.987 * 300))) :=
  ⟨by norm_num, by norm_num,
    c1_evaluator_formula 300 (2.64e16) (-0.67) 16800 1.987 [300, 1000, 2000]
      (by norm_num) (by norm_num)⟩

/-- Claim C2: for a duplicate reaction with channel list ps (m ≥ 1) and
every grid point i, the aggregated total rate constant at that point is
the arithmetic sum of the independently evaluated per-channel rate
constants at the same point; log₁₀ is applied only to that sum (the
logged curve is the elementwise log of `k_total`, never a sum of
per-channel logs); and each of the three reference-temperature `sum`-row
entries equals the sum of the corresponding channel-row entries. -/
theorem c2_duplicate_sum (T : List ℝ) (ps : List RateParams) (R : ℝ) (i : ℕ)
    (hps : ps ≠ []) (hi : i < T.length) :
    (k_total T ps R).getD i 0 =
      (ps.map (fun p => calculate_rate_constant (T.getD i 0) p.A p.n p.Ea R)).sum
    ∧ log_k_total T ps R = (k_total T ps R).map (fun x => Real.logb 10 x)
    ∧ k_total_300 ps R =
        (ps.map (fun p => calculate_rate_constant 300 p.A p.n p.Ea R)).sum
    ∧ k_total_1000 ps R =
        (ps.map (fun p => calculate_rate_constant 1000 p.A p.n p.Ea R)).sum
    ∧ k_total_2000 ps R =
        (ps.map (fun p => calculate_rate_constant 2000 p.A p.n p.Ea R)).sum := by
  refine ⟨?_, rfl, rfl, rfl, rfl⟩
  unfold k_total npSumAxis0
  rw [getD_map_of_lt _ 0 0 _ i (by simpa using hi), getD_range_of_lt hi 0]
  unfold k_components calculate_rate_constant_vec
  rw [List.map_map]
  exact congrArg List.sum (List.map_congr_left
    (fun p _ => getD_map_of_lt _ 0 0 T i hi))

/-- Witness for C2 with the one-channel list [⟨1, 0, 0⟩], grid [300],
R = 1.987, grid point 0. -/
theorem c2_duplicate_sum_witness :
    ([⟨1, 0, 0⟩] : List RateParams) ≠ []
    ∧ (0 : ℕ) < ([300] : List ℝ).length
    ∧ ((k_total [300] [⟨1, 0, 0⟩] 1.987).getD 0 0 =
        (([⟨1, 0, 0⟩] : List RateParams).map
          (fun p => calculate_rate_constant (([300] : List ℝ).getD 0 0)
            p.A p.n p.Ea 1.987)).sum
    ∧ log_k_total [300] [⟨1, 0, 0⟩] 1.987 =
        (k_total [300] [⟨1, 0, 0⟩] 1.987).map (fun x => Real.logb 10 x)
    ∧ k_total_300 [⟨1, 0, 0⟩] 1.987 =
        (([⟨1, 0, 0⟩] : List RateParams).map
          (fun p => calculate_rate_constant 300 p.A p.n p.Ea 1.987)).sum
    ∧ k_total_1000 [⟨1, 0, 0⟩] 1.987 =
        (([⟨1, 0, 0⟩] : List RateParams).map
          (fun p => calculate_rate_constant 1000 p.A p.n p.Ea 1.987)).sum
    ∧ k_total_2000 [⟨1, 0, 0⟩] 1.987 =
        (([⟨1, 0, 0⟩] : List RateParams).map
          (fun p => calculate_rate_constant 2000 p.A p.n p.Ea 1.987)).sum) :=
  ⟨by simp, by simp,
    c2_duplicate_sum [300] [⟨1, 0, 0⟩] 1.987 0 (by simp) (by simp)⟩

theorem reaction_logs_no_flag (T : List ℝ) (R : ℝ) (r : RReaction) :
    reaction_logs T R false r = primary_curve T R r := by
  simp [reaction_logs]

/-- Claim C5: in auto Y-range mode the range is computed from every
collected log₁₀(k) value — the primary curve of every valid reaction
always, the per-channel auxiliary curves only when the show-components
flag is set — as [min − 0.1·span, max + 0.1·span] with span = max − min
(the bounds produced are exactly the list minimum and maximum shifted by
the margin); collected values with min = −5 and max = 5 yield exactly
[−6, 6]; and an empty collected list produces no range (the caller's
default applies).  In the real-number model every collected value is
finite; IEEE non-finite values are outside the model (spec §9 flags
their handling as an open design choice). -/
theorem c5_auto_y_range (x : ℝ) (xs : List ℝ) (T : List ℝ) (R : ℝ)
    (rs : List RReaction) (r : RReaction) :
    (∃ m M, m ∈ x :: xs ∧ M ∈ x :: xs ∧ (∀ y ∈ x :: xs, m ≤ y ∧ y ≤ M) ∧
      auto_y_range (x :: xs) = some (m - (M - m) * 0.1, M + (M - m) * 0.1))
    ∧ auto_y_range ([] : List ℝ) = none
    ∧ auto_y_range [(-5 : ℝ), 0, 5] = some (-6, 6)
    ∧ reaction_logs T R false r = primary_curve T R r
    ∧ (r.rtype = "single" → reaction_logs T R true r = primary_curve T R r)
    ∧ (r.rtype ≠ "single" → reaction_logs T R true r =
        primary_curve T R r ++ (component_curves T R r).flatten)
    ∧ all_log_k T R false rs = (rs.map (primary_curve T R)).flatten := by
  refine ⟨⟨xs.foldl min x, xs.foldl max x, foldl_min_mem xs x, foldl_max_mem xs x,
      fun y hy => ⟨foldl_min_le xs x y hy, le_foldl_max xs x y hy⟩, rfl⟩,
    rfl, ?_, reaction_logs_no_flag T R r, ?_, ?_, ?_⟩
  · norm_num [auto_y_range, min_def, max_def]
  · intro h
    simp [reaction_logs, h]
  · intro h
    simp [reaction_logs, h]
  · unfold all_log_k
    exact congrArg List.flatten
      (List.map_congr_left (fun a _ => reaction_logs_no_flag T R a))

/-- Claim C8: malformed or incomplete records never change the other
records' output: filtering the session list down to the records that
pass validation leaves the list of valid reactions — and hence the
plotted curves and the summary table computed from them — unchanged.  A
parse failure is absorbed inside `validate` (the parser is total, see
the C9 theorem), so no record can abort the recomputation. -/
theorem c8_malformed_records_isolated (T : List ℝ) (R : ℝ)
    (rs : List ReactionInput) :
    valid_reactions (rs.filter (fun r => (validate r).isSome)) = valid_reactions rs
    ∧ curves T R (rs.filter (fun r => (validate r).isSome)) = curves T R rs
    ∧ table R (rs.filter (fun r => (validate r).isSome)) = table R rs := by
  have h : valid_reactions (rs.filter (fun r => (validate r).isSome)) =
      valid_reactions rs := filterMap_filter_isSome validate rs
  refine ⟨h, ?_, ?_⟩
  · simp only [curves, h]
  · simp only [table, h]

/-- Claim C7: in inverse-temperature mode every plotted x value is
1000/T for its grid temperature, the resolved x-range is
[1000/T_max, 1000/T_min] (bounds swapped relative to the T-domain
bounds), and for every grid with T_min < T_max the grid's last (hottest)
sample maps to the numerically smallest x (1000/T_max, a lower bound of
all plotted x) while the first (coldest) sample maps to the largest x
(1000/T_min, an upper bound of all plotted x). -/
theorem c7_inverse_temperature_axis (tmin tmax : ℝ) (num : ℕ)
    (h0 : 0 < tmin) (h1 : tmin < tmax) (h2 : 2 ≤ num) :
    (∀ i, i < num → (x_data_inv (linspace tmin tmax num)).getD i 0 =
        1000 / (linspace tmin tmax num).getD i 0)
    ∧ x_range_inv tmin tmax = (1000 / tmax, 1000 / tmin)
    ∧ (linspace tmin tmax num).getD 0 0 = tmin
    ∧ (linspace tmin tmax num).getD (num - 1) 0 = tmax
    ∧ (x_data_inv (linspace tmin tmax num)).getD 0 0 = 1000 / tmin
    ∧ (x_data_inv (linspace tmin tmax num)).getD (num - 1) 0 = 1000 / tmax
    ∧ ∀ x ∈ x_data_inv (linspace tmin tmax num),
        1000 / tmax ≤ x ∧ x ≤ 1000 / tmin := by
  have hlen : (linspace tmin tmax num).length = num := by simp [linspace]
  have hn1 : ((num - 1 : ℕ) : ℝ) ≠ 0 := Nat.cast_ne_zero.mpr (by omega)
  have hx : ∀ i, i < num → (x_data_inv (linspace tmin tmax num)).getD i 0 =
      1000 / (linspace tmin tmax num).getD i 0 := by
    intro i hi
    exact getD_map_of_lt _ 0 0 _ i (by rw [hlen]; exact hi)
  have hfirst : (linspace tmin tmax num).getD 0 0 = tmin := by
    unfold linspace
    rw [getD_map_of_lt _ 0 0 _ 0 (by simpa using by omega : 0 < (List.range num).length),
      getD_range_of_lt (by omega) 0]
    simp
  have hlast : (linspace tmin tmax num).getD (num - 1) 0 = tmax := by
    unfold linspace
    rw [getD_map_of_lt _ 0 0 _ (num - 1)
        (by simpa using by omega : num - 1 < (List.range num).length),
      getD_range_of_lt (by omega) 0]
    rw [mul_div_assoc, div_self hn1, mul_one]
    ring
  refine ⟨hx, rfl, hfirst, hlast, ?_, ?_, ?_⟩
  · rw [hx 0 (by omega), hfirst]
  · rw [hx (num - 1) (by omega), hlast]
  · intro x hxmem
    obtain ⟨t, ht, rfl⟩ := List.mem_map.mp hxmem
    obtain ⟨i, hi, rfl⟩ := List.mem_map.mp ht
    have hilt : i < num := List.mem_range.mp hi
    have hsub : (0 : ℝ) ≤ tmax - tmin := by linarith
    have hn1pos : (0 : ℝ) < ((num - 1 : ℕ) : ℝ) := by
      exact_mod_cast Nat.pos_of_ne_zero (by omega)
    have hc : 0 ≤ (tmax - tmin) * (i : ℝ) / ((num - 1 : ℕ) : ℝ) :=
      div_nonneg (mul_nonneg hsub (Nat.cast_nonneg i)) hn1pos.le
    have hile : ((i : ℝ)) ≤ ((num - 1 : ℕ) : ℝ) := Nat.cast_le.mpr (by omega)
    have hcle : (tmax - tmin) * (i : ℝ) / ((num - 1 : ℕ) : ℝ) ≤ tmax - tmin := by
      rw [div_le_iff₀ hn1pos]
      nlinarith [mul_le_mul_of_nonneg_left hile hsub]
    have htl : tmin ≤ tmin + (tmax - tmin) * (i : ℝ) / ((num - 1 : ℕ) : ℝ) := by
      linarith
    have htu : tmin + (tmax - tmin) * (i : ℝ) / ((num - 1 : ℕ) : ℝ) ≤ tmax := by
      linarith
    have ht0 : 0 < tmin + (tmax - tmin) * (i : ℝ) / ((num - 1 : ℕ) : ℝ) := by
      linarith
    constructor
    · gcongr
    · gcongr

/-- Witness for C7 at T_min = 300, T_max = 2000, 500 grid samples. -/
theorem c7_inverse_temperature_axis_witness :
    (0 : ℝ) < 300 ∧ (300 : ℝ) < 2000 ∧ (2 : ℕ) ≤ 500 ∧
    ((∀ i, i < 500 → (x_data_inv (linspace 300 2000 500)).getD i 0 =
        1000 / (linspace 300 2000 500).getD i 0)
    ∧ x_range_inv 300 2000 = (1000 / 2000, 1000 / 300)
    ∧ (linspace 300 2000 500).getD 0 0 = 300
    ∧ (linspace 300 2000 500).getD (500 - 1) 0 = 2000
    ∧ (x_data_inv (linspace 300 2000 500)).getD 0 0 = 1000 / 300
    ∧ (x_data_inv (linspace 300 2000 500)).getD (500 - 1) 0 = 1000 / 2000
    ∧ ∀ x ∈ x_data_inv (linspace 300 2000 500),
        1000 / 2000 ≤ x ∧ x ≤ 1000 / 300) :=
  ⟨by norm_num, by norm_num, by norm_num,
    c7_inverse_temperature_axis 300 2000 500 (by norm_num) (by norm_num)
      (by norm_num)⟩
